import Mathlib

/-!
Shallow embedding of the continual-learning training agent in
`src/agents/default.py` (class `NormalNN` and the module-level metric
accumulation helpers).  Tensors of per-sample outputs are modelled as lists
of rows over the rationals; the base loss function (`self.criterion_fn`) is
an abstract parameter where its value does not matter, and a two-valued
kind (cross-entropy / mean-squared-error) where the code selects it.
-/

namespace LPC

/-- A tensor of per-sample outputs: one row (list of per-class scores) per
sample, as produced by one head for the whole batch. -/
abbrev Tensor := List (List ℚ)

/-- A targets tensor: one value per sample. -/
abbrev Targets := List ℚ

/-- An abstract base loss function (`self.criterion_fn` applied to a sliced
prediction tensor and the matching targets, returning the averaged loss). -/
abbrev LossFn := Tensor → Targets → ℚ

/-- `self.valid_out_dim`: either the string sentinel `'ALL'` or a Python
integer (`default.py` lines 70-71 and 340-347). -/
inductive ValidOutDim where
  | ALL : ValidOutDim
  | num : Int → ValidOutDim
deriving DecidableEq, Repr

/-- `NormalNN.add_valid_output_dim` (`default.py` lines 340-347): if the
state is the `'ALL'` sentinel it is first set to `0`, then `dim` is added;
the new value is both stored and returned. -/
def add_valid_output_dim (v : ValidOutDim) (dim : Int) : ValidOutDim × Int :=
  let v0 : Int :=
    match v with
    | ValidOutDim.ALL => 0
    | ValidOutDim.num n => n
  let v1 : Int := v0 + dim
  (ValidOutDim.num v1, v1)

/-- `add_valid_output_dim` invoked with its Python default argument
`dim=0`. -/
def add_valid_output_dim_default (v : ValidOutDim) : ValidOutDim × Int :=
  add_valid_output_dim v 0

/-- The state of `valid_out_dim` after a sequence of
`add_valid_output_dim` calls starting from state `v`. -/
def vodRunFrom (v : ValidOutDim) (dims : List Int) : ValidOutDim :=
  dims.foldl (fun s d => (add_valid_output_dim s d).1) v

/-- `inds = [i for i in range(len(tasks)) if tasks[i]==t]` (`default.py`
line 209): the indices of the samples whose task label equals `t`. -/
def matchIdx (tasks : List String) (t : String) : List Nat :=
  (List.range tasks.length).filter (fun i => tasks.get? i = some t)

/-- Row selection `x[inds]`: the rows of `x` at the given indices, in
order. -/
def selectRows {α : Type} (x : List α) (inds : List Nat) : List α :=
  inds.filterMap (fun i => x.get? i)

/-- The multi-head branch of `NormalNN.criterion` (`default.py` lines
206-214): sum, over the task keys of the predictions dict, of the base loss
on the matching slice times the matching count (skipping tasks with no
matching sample), divided by the batch size `len(targets)`. -/
def criterion_multihead (fn : LossFn) (preds : List (String × Tensor))
    (targets : Targets) (tasks : List String) : ℚ :=
  (preds.foldl
    (fun acc p =>
      if 0 < (matchIdx tasks p.1).length then
        acc + fn (selectRows p.2 (matchIdx tasks p.1))
            (selectRows targets (matchIdx tasks p.1)) * (matchIdx tasks p.1).length
      else acc) 0) / targets.length

/-- Python row slicing `row[:k]` for an `int` `k`: the first `k` entries
when `k ≥ 0`, and all but the last `-k` entries when `k < 0`. -/
def sliceRow (row : List ℚ) (k : Int) : List ℚ :=
  if 0 ≤ k then row.take k.toNat else row.take (row.length - (-k).toNat)

/-- Column masking `pred[:, :k]` applied to every row of a tensor. -/
def maskCols (pred : Tensor) (k : Int) : Tensor :=
  pred.map (fun row => sliceRow row k)

/-- The single-head predictions value: either a dict keyed by task name or
a positional (tuple/list-like) structure of tensors, as the fallback branch
of `criterion` assumes. -/
inductive Preds where
  | dict : List (String × Tensor) → Preds
  | positional : List Tensor → Preds

/-- Dict lookup of the key `"All"` in a predictions dict. -/
def lookupAll (m : List (String × Tensor)) : Option Tensor :=
  (m.find? (fun p => p.1 = "All")).map (fun p => p.2)

/-- The single-head branch of `NormalNN.criterion` (`default.py` lines
215-222): with an `"All"` key, mask to the first `valid_out_dim` columns
exactly when `valid_out_dim` is an `int`, then apply the base loss; without
one, index position `1` of the predictions (`preds[1]`), failing (`none`)
when that index does not exist. -/
def criterion_single (fn : LossFn) (vod : ValidOutDim) (preds : Preds)
    (targets : Targets) : Option ℚ :=
  match preds with
  | Preds.dict m =>
    match lookupAll m with
    | some predAll =>
      let pred : Tensor :=
        match vod with
        | ValidOutDim.num k => maskCols predAll k
        | ValidOutDim.ALL => predAll
      some (fn pred targets)
    | none => none
  | Preds.positional l => (l.get? 1).map (fun p => fn p targets)

/-- Modelled from the spec: the `AverageMeter` of `utils/metric.py` is not
under `src/`; per the spec's Metric Accumulator contract, `update(value,
weight)` adds `value*weight` to an internal sum and `weight` to an internal
count, and `avg` returns `sum/count`. -/
structure AverageMeter where
  sum : ℚ
  count : ℚ
deriving DecidableEq, Repr

/-- Modelled from the spec: `update(value, weight)` on the Metric
Accumulator. -/
def AverageMeter.update (m : AverageMeter) (value weight : ℚ) : AverageMeter :=
  { sum := m.sum + value * weight, count := m.count + weight }

/-- Modelled from the spec: the `avg` property of the Metric
Accumulator. -/
def AverageMeter.avg (m : AverageMeter) : ℚ :=
  m.sum / m.count

/-- Modelled from the spec: a freshly constructed meter at the start of a
pass (zero sum, count `0`). -/
def AverageMeter.empty : AverageMeter :=
  { sum := 0, count := 0 }

/-- Applying `update` once per `(value, weight)` pair of a list, in list
order. -/
def applyUpdates (m : AverageMeter) (l : List (ℚ × ℚ)) : AverageMeter :=
  l.foldl (fun acc p => acc.update p.1 p.2) m

/-- The multi-head branch of `accumulate_acc` (`default.py` lines 380-386):
for each task key of the output dict, update the meter with the metric on
the matching slice weighted by the matching count, skipping tasks with no
matching sample.  The metric function (`accuracy`) is an abstract
parameter. -/
def accumulate_acc_multi (metric : Tensor → Targets → ℚ)
    (output : List (String × Tensor)) (target : Targets)
    (task : List String) (meter : AverageMeter) : AverageMeter :=
  output.foldl
    (fun m p =>
      let inds := matchIdx task p.1
      if 0 < inds.length then
        m.update (metric (selectRows p.2 inds) (selectRows target inds)) inds.length
      else m) meter

/-- The kind of base loss function the agent configures
(`nn.CrossEntropyLoss()` or `nn.MSELoss()`). -/
inductive LossKind where
  | crossEntropy : LossKind
  | mse : LossKind
deriving DecidableEq, Repr

/-- The GLUE output mode of a task name (`output_modes[val_name]`),
an external mapping: classification or regression. -/
inductive OutputMode where
  | classification : OutputMode
  | regression : OutputMode
deriving DecidableEq, Repr

/-- The agent state touched by `validation`: the module's train/eval flag,
the configured loss function kind, `valid_out_dim`, and an opaque counter
standing for the optimizer and scheduler state. -/
structure AgentState where
  training : Bool
  criterion_fn : LossKind
  valid_out_dim : ValidOutDim
  optimizer : Nat
deriving DecidableEq, Repr

/-- The state effect of `NormalNN.validation` (`default.py` lines 145-199):
it selects `criterion_fn` from the validation task (`cola` and
classification tasks get cross-entropy, regression tasks get MSE), records
`orig_mode = self.training`, switches to eval mode for the loader pass
(which only reads the model and fills local meters), and finally restores
`self.train(orig_mode)`. -/
def validationState (output_modes : String → OutputMode) (val_name : String)
    (s : AgentState) : AgentState :=
  let s1 : AgentState :=
    if val_name = "cola" then { s with criterion_fn := LossKind.crossEntropy }
    else
      match output_modes val_name with
      | OutputMode.classification => { s with criterion_fn := LossKind.crossEntropy }
      | OutputMode.regression => { s with criterion_fn := LossKind.mse }
  let origMode := s.training
  let s2 : AgentState := { s1 with training := false }
  { s2 with training := origMode }

/-- An observable event of one `learn_batch` run. -/
inductive Event where
  | schedStep : Nat → Event
  | trainPass : Nat → Event
  | validate : Nat → Event
deriving DecidableEq, Repr

/-- The events of one epoch of `learn_batch` (`default.py` lines 243-335):
the scheduler is stepped once (`self.scheduler.step(epoch)`, line 259),
the mini-batch training pass runs, and `validation` is invoked exactly when
a validation loader was supplied (lines 334-335). -/
def epochEvents (epoch : Nat) (hasVal : Bool) : List Event :=
  [Event.schedStep epoch, Event.trainPass epoch] ++
    (if hasVal then [Event.validate epoch] else [])

/-- `self.config['schedule'][-1]`: the last milestone of the schedule. -/
def lastMilestone (schedule : List Nat) : Nat :=
  schedule.getLastD 0

/-- The epoch-level trace of `learn_batch`: `for epoch in
range(self.config['schedule'][-1])` (`default.py` line 243). -/
def learn_batch_trace (schedule : List Nat) (hasVal : Bool) : List Event :=
  (List.range (lastMilestone schedule)).flatMap (fun e => epochEvents e hasVal)

/-- `NormalNN.learn_stream` (`default.py` lines 337-338): `assert False,
'No implementation yet'` before any other statement. -/
def learn_stream (_s : AgentState) (_data _label : ℚ) : Except String AgentState :=
  Except.error "No implementation yet"

/-- A concrete base loss used by witnesses: the sum of all prediction
entries (ignoring the targets). -/
def sumLoss : LossFn :=
  fun p _ => (p.flatMap id).sum

/-- A concrete base loss used by witnesses: `1` on a three-row slice and
`2` otherwise, matching the spec example's per-task average losses. -/
def exampleLoss : LossFn :=
  fun p _ => if p.length = 3 then 1 else 2

/-- The task labels of the spec example: three samples of task `A`
followed by five of task `B`. -/
def tasksAB : List String :=
  ["A", "A", "A", "B", "B", "B", "B", "B"]

/-- The predictions map of the spec example: each head evaluates all eight
samples of the batch. -/
def predsAB : List (String × Tensor) :=
  [("A", List.replicate 8 [0]), ("B", List.replicate 8 [0])]

/-- The targets of the spec example's eight-sample batch. -/
def targetsAB : Targets :=
  List.replicate 8 0

/-- Running `add_valid_output_dim` from an integer state adds up the
dimension increments. -/
theorem vodRunFrom_num (n : Int) (ds : List Int) :
    vodRunFrom (ValidOutDim.num n) ds = ValidOutDim.num (n + ds.sum) := by
  induction ds generalizing n with
  | nil => simp [vodRunFrom]
  | cons d ds ih =>
    have h1 : vodRunFrom (ValidOutDim.num n) (d :: ds)
        = vodRunFrom (ValidOutDim.num (n + d)) ds := rfl
    rw [h1, ih, List.sum_cons, add_assoc]

/-- Claim C8: every call to the streaming learning entry point
`learn_stream` fails immediately and unconditionally with the
`No implementation yet` assertion, returning no successor state. -/
theorem learn_stream_always_fails (s : AgentState) (data label : ℚ) :
    learn_stream s data label = Except.error "No implementation yet" :=
  rfl

/-- Claim C2: `valid_out_dim` starts at the `ALL` sentinel; a call of
`add_valid_output_dim` with a positive `d` maps `ALL` to the integer `d`
(via `0 + d`) and an integer `n` to `n + d`; across any further sequence of
positive calls the state never returns to `ALL` and never decreases. -/
theorem valid_out_dim_state_machine (d n : Int) (ds : List Int)
    (hd : 0 < d) (hds : ∀ x ∈ ds, 0 < x) :
    (add_valid_output_dim ValidOutDim.ALL d).1 = ValidOutDim.num d ∧
    (add_valid_output_dim (ValidOutDim.num n) d).1 = ValidOutDim.num (n + d) ∧
    (∀ v : ValidOutDim, vodRunFrom v (d :: ds) ≠ ValidOutDim.ALL) ∧
    (∀ m : Int, vodRunFrom (ValidOutDim.num m) ds = ValidOutDim.num (m + ds.sum)
      ∧ m ≤ m + ds.sum) := by
  have hsum : 0 ≤ ds.sum := List.sum_nonneg (fun x hx => le_of_lt (hds x hx))
  refine ⟨by simp [add_valid_output_dim], rfl, ?_, ?_⟩
  · intro v
    have h1 : ∃ k : Int, (add_valid_output_dim v d).1 = ValidOutDim.num k := by
      cases v <;> exact ⟨_, rfl⟩
    obtain ⟨k, hk⟩ := h1
    have h2 : vodRunFrom v (d :: ds) = vodRunFrom ((add_valid_output_dim v d).1) ds := rfl
    rw [h2, hk, vodRunFrom_num]
    simp
  · intro m
    exact ⟨vodRunFrom_num m ds, le_add_of_nonneg_right hsum⟩

/-- Claim C2 witness: from state `ALL`, adding `10` gives the integer
state `10`, and then adding `5` gives `15`, as in the spec example. -/
theorem valid_out_dim_state_machine_witness :
    (add_valid_output_dim ValidOutDim.ALL 10).1 = ValidOutDim.num 10 ∧
    vodRunFrom (ValidOutDim.num 10) [5] = ValidOutDim.num 15 := by
  have h := valid_out_dim_state_machine 10 0 [5] (by decide) (by decide)
  exact ⟨h.1, ((h.2.2.2 10).1).trans (by decide)⟩

/-- Claim C10: `add_valid_output_dim` with its default argument `dim=0`
on the `ALL` sentinel moves the state to the integer `0` and returns `0`,
and the single-head criterion then masks the `All` predictions to their
first zero columns (every row becomes empty). -/
theorem add_valid_output_dim_default_zero (fn : LossFn)
    (m : List (String × Tensor)) (predAll : Tensor) (targets : Targets)
    (h : lookupAll m = some predAll) :
    add_valid_output_dim_default ValidOutDim.ALL = (ValidOutDim.num 0, 0) ∧
    criterion_single fn (ValidOutDim.num 0) (Preds.dict m) targets
      = some (fn (predAll.map (fun _ => [])) targets) := by
  refine ⟨rfl, ?_⟩
  simp [criterion_single, h, maskCols, sliceRow]

/-- Claim C10 witness: with `All` predictions `[[1,2],[3,4]]`, after the
state reaches integer `0` the masked criterion sees only empty rows, so a
sum-of-entries base loss returns `0`. -/
theorem add_valid_output_dim_default_zero_witness :
    add_valid_output_dim_default ValidOutDim.ALL = (ValidOutDim.num 0, 0) ∧
    criterion_single sumLoss (ValidOutDim.num 0)
      (Preds.dict [("All", [[1, 2], [3, 4]])]) [0, 0] = some 0 := by
  have h := add_valid_output_dim_default_zero sumLoss
    [("All", [[1, 2], [3, 4]])] [[1, 2], [3, 4]] [0, 0] rfl
  exact ⟨h.1, h.2.trans (by simp [sumLoss])⟩

/-- Claim C3: in single-head mode with an `All` key, an integer
`valid_out_dim = k` makes `criterion` apply the base loss to the first `k`
columns of the `All` predictions against the full targets, while the `ALL`
sentinel leaves the predictions unmasked. -/
theorem single_head_masking (fn : LossFn) (m : List (String × Tensor))
    (predAll : Tensor) (targets : Targets) (k : Int)
    (h : lookupAll m = some predAll) (hk : 0 ≤ k) :
    criterion_single fn (ValidOutDim.num k) (Preds.dict m) targets
      = some (fn (predAll.map (fun row => row.take k.toNat)) targets) ∧
    criterion_single fn ValidOutDim.ALL (Preds.dict m) targets
      = some (fn predAll targets) := by
  constructor
  · simp [criterion_single, h, maskCols, sliceRow, hk]
  · simp [criterion_single, h]

/-- Claim C3 witness: masking `[[1,2],[3,4]]` to its first column leaves
`[[1],[3]]` (sum `4`), while the `ALL` sentinel keeps all entries
(sum `10`). -/
theorem single_head_masking_witness :
    criterion_single sumLoss (ValidOutDim.num 1)
      (Preds.dict [("All", [[1, 2], [3, 4]])]) [0, 1] = some 4 ∧
    criterion_single sumLoss ValidOutDim.ALL
      (Preds.dict [("All", [[1, 2], [3, 4]])]) [0, 1] = some 10 := by
  have h := single_head_masking sumLoss [("All", [[1, 2], [3, 4]])]
    [[1, 2], [3, 4]] [0, 1] 1 rfl (by decide)
  refine ⟨h.1.trans ?_, h.2.trans ?_⟩
  · simp [sumLoss]
    norm_num
  · simp [sumLoss]
    norm_num

/-- The guarded accumulation loop of the multi-head criterion equals the
plain sum of the per-task contributions: a skipped task's contribution
carries a zero matching count, hence vanishes. -/
theorem criterion_loop_sum (fn : LossFn) (targets : Targets)
    (tasks : List String) (preds : List (String × Tensor)) (acc : ℚ) :
    preds.foldl
      (fun acc p =>
        if 0 < (matchIdx tasks p.1).length then
          acc + fn (selectRows p.2 (matchIdx tasks p.1))
              (selectRows targets (matchIdx tasks p.1)) * (matchIdx tasks p.1).length
        else acc) acc
      = acc + (preds.map (fun p =>
          fn (selectRows p.2 (matchIdx tasks p.1))
              (selectRows targets (matchIdx tasks p.1))
            * (matchIdx tasks p.1).length)).sum := by
  induction preds generalizing acc with
  | nil => simp
  | cons q l ih =>
    rw [List.foldl_cons, List.map_cons, List.sum_cons]
    by_cases h : 0 < (matchIdx tasks q.1).length
    · rw [if_pos h, ih]
      ring
    · rw [if_neg h, ih]
      have hz : ((matchIdx tasks q.1).length : ℚ) = 0 := by
        rw [Nat.eq_zero_of_not_pos h]
        norm_num
      rw [hz]
      ring

/-- Claim C1: in multi-head mode, `criterion` returns the sum over the
task keys of the predictions map of the base loss on the matching slices
times the matching count, divided by the total batch size `N`; a task with
no matching index contributes its loss times a zero count, i.e. nothing. -/
theorem criterion_multihead_weighted_average (fn : LossFn)
    (preds : List (String × Tensor)) (targets : Targets) (tasks : List String)
    (hN : tasks.length = targets.length) (hpos : 0 < targets.length) :
    criterion_multihead fn preds targets tasks =
      (preds.map (fun p =>
        fn (selectRows p.2 (matchIdx tasks p.1))
            (selectRows targets (matchIdx tasks p.1))
          * (matchIdx tasks p.1).length)).sum / targets.length := by
  unfold criterion_multihead
  rw [criterion_loop_sum, zero_add]

/-- Claim C1 witness: with task counts `A: 3`, `B: 5` and per-task average
losses `A: 1`, `B: 2`, the aggregated loss over the eight-sample batch is
`(1*3 + 2*5)/8 = 13/8 = 1.625`. -/
theorem criterion_multihead_weighted_average_witness :
    criterion_multihead exampleLoss predsAB targetsAB tasksAB = 13 / 8 := by
  have h := criterion_multihead_weighted_average exampleLoss predsAB
    targetsAB tasksAB (by decide) (by decide)
  have hA : matchIdx tasksAB "A" = [0, 1, 2] := by decide
  have hB : matchIdx tasksAB "B" = [3, 4, 5, 6, 7] := by decide
  have eA : selectRows (List.replicate 8 ([0] : List ℚ)) [0, 1, 2]
      = List.replicate 3 [0] := by decide
  have eB : selectRows (List.replicate 8 ([0] : List ℚ)) [3, 4, 5, 6, 7]
      = List.replicate 5 [0] := by decide
  have lA : exampleLoss (List.replicate 3 [0]) (selectRows targetsAB [0, 1, 2]) = 1 := by
    simp [exampleLoss]
  have lB : exampleLoss (List.replicate 5 [0]) (selectRows targetsAB [3, 4, 5, 6, 7]) = 2 := by
    simp [exampleLoss]
  rw [h]
  simp only [predsAB, List.map_cons, List.map_nil, List.sum_cons, List.sum_nil,
    hA, hB, eA, eB, lA, lB]
  norm_num [targetsAB]

/-- Claim C4: a task key of the multi-head predictions map whose matching
index set is empty contributes exactly zero to the aggregated criterion
loss (removing its entry leaves the loss unchanged) and triggers no meter
update in the metric accumulation helper (removing its entry leaves the
meter unchanged). -/
theorem empty_task_no_contribution (fn metric : LossFn)
    (pre post : List (String × Tensor)) (t : String) (tp : Tensor)
    (targets : Targets) (tasks : List String) (meter : AverageMeter)
    (h : matchIdx tasks t = []) :
    criterion_multihead fn (pre ++ (t, tp) :: post) targets tasks
      = criterion_multihead fn (pre ++ post) targets tasks ∧
    accumulate_acc_multi metric (pre ++ (t, tp) :: post) targets tasks meter
      = accumulate_acc_multi metric (pre ++ post) targets tasks meter := by
  constructor
  · unfold criterion_multihead
    rw [List.foldl_append, List.foldl_append, List.foldl_cons]
    simp [h]
  · unfold accumulate_acc_multi
    rw [List.foldl_append, List.foldl_append, List.foldl_cons]
    simp [h]

/-- Claim C4 witness: in a batch whose only label is `B`, inserting an
entry for the unmatched task `C` changes neither the aggregated loss nor
the accumulated meter. -/
theorem empty_task_no_contribution_witness :
    criterion_multihead sumLoss
        ([("A", [[5]])] ++ ("C", [[9]]) :: [("B", [[1]])]) [2] ["B"]
      = criterion_multihead sumLoss ([("A", [[5]])] ++ [("B", [[1]])]) [2] ["B"] ∧
    accumulate_acc_multi sumLoss
        ([("A", [[5]])] ++ ("C", [[9]]) :: [("B", [[1]])]) [2] ["B"]
        AverageMeter.empty
      = accumulate_acc_multi sumLoss ([("A", [[5]])] ++ [("B", [[1]])]) [2] ["B"]
        AverageMeter.empty :=
  empty_task_no_contribution sumLoss sumLoss [("A", [[5]])] [("B", [[1]])]
    "C" [[9]] [2] ["B"] AverageMeter.empty (by decide)

/-- Claim C7 counterexample: a three-element positional predictions value
is not an exactly-two-element structure, yet the single-head fallback does
not fail: it returns the base loss of the element at index `1`. -/
theorem fallback_three_elements_returns :
    criterion_single sumLoss ValidOutDim.ALL
      (Preds.positional [[[1]], [[2]], [[3]]]) [0] = some 2 := by
  simp [criterion_single, sumLoss]

/-- Claim C7 amended: the single-head fallback computes the base loss from
the element at index `1` of the positional predictions, and the call fails
exactly when the predictions have fewer than two elements (index `1`
inaccessible), regardless of whether there are exactly two. -/
theorem fallback_index_one (fn : LossFn) (l : List Tensor) (p : Tensor)
    (targets : Targets) :
    (l.get? 1 = some p →
      criterion_single fn ValidOutDim.ALL (Preds.positional l) targets
        = some (fn p targets)) ∧
    (criterion_single fn ValidOutDim.ALL (Preds.positional l) targets = none
      ↔ l.length < 2) := by
  constructor
  · intro h
    show (l.get? 1).map (fun p => fn p targets) = some (fn p targets)
    rw [h]
    rfl
  · simp only [criterion_single, Option.map_eq_none']
    rw [List.get?_eq_none]
    omega

/-- Claim C7 amended witness: on the two-element positional value
`[[[7]], [[9]]]` the fallback returns the base loss of `[[9]]`, the
element at index `1`. -/
theorem fallback_index_one_witness :
    criterion_single sumLoss ValidOutDim.ALL
      (Preds.positional [[[7]], [[9]]]) [] = some 9 := by
  have h := (fallback_index_one sumLoss [[[7]], [[9]]] [[9]] []).1 rfl
  refine h.trans ?_
  simp [sumLoss]

/-- Applying a list of `(value, weight)` updates to a meter adds the sum
of the products to its sum and the sum of the weights to its count. -/
theorem applyUpdates_eq (m : AverageMeter) (l : List (ℚ × ℚ)) :
    applyUpdates m l =
      { sum := m.sum + (l.map (fun p => p.1 * p.2)).sum,
        count := m.count + (l.map Prod.snd).sum } := by
  induction l generalizing m with
  | nil => simp [applyUpdates]
  | cons p l ih =>
    have h1 : applyUpdates m (p :: l) = applyUpdates (m.update p.1 p.2) l := rfl
    rw [h1, ih]
    simp only [AverageMeter.update, List.map_cons, List.sum_cons, AverageMeter.mk.injEq]
    constructor <;> ring

/-- Claim C9: applying the Metric Accumulator's `update` once per pair of
a `(value, weight)` multiset with positive total weight, in any order,
yields the same final `avg`, namely the weighted mean
`(Σ value·weight) / (Σ weight)`. -/
theorem meter_avg_order_invariant (l₁ l₂ : List (ℚ × ℚ))
    (hperm : l₁.Perm l₂) (hpos : 0 < (l₁.map Prod.snd).sum) :
    (applyUpdates AverageMeter.empty l₁).avg
      = (applyUpdates AverageMeter.empty l₂).avg ∧
    (applyUpdates AverageMeter.empty l₁).avg
      = (l₁.map (fun p => p.1 * p.2)).sum / (l₁.map Prod.snd).sum := by
  have h1 : (applyUpdates AverageMeter.empty l₁).avg
      = (l₁.map (fun p => p.1 * p.2)).sum / (l₁.map Prod.snd).sum := by
    rw [applyUpdates_eq]
    simp [AverageMeter.avg, AverageMeter.empty]
  have h2 : (applyUpdates AverageMeter.empty l₂).avg
      = (l₂.map (fun p => p.1 * p.2)).sum / (l₂.map Prod.snd).sum := by
    rw [applyUpdates_eq]
    simp [AverageMeter.avg, AverageMeter.empty]
  have hw : (l₂.map Prod.snd).sum = (l₁.map Prod.snd).sum :=
    ((hperm.map Prod.snd).sum_eq).symm
  have hvw : (l₂.map (fun p => p.1 * p.2)).sum = (l₁.map (fun p => p.1 * p.2)).sum :=
    ((hperm.map (fun p => p.1 * p.2)).sum_eq).symm
  refine ⟨?_, h1⟩
  rw [h1, h2, hw, hvw]

/-- Claim C9 witness: the update multiset `{(1,2),(3,4)}` applied in both
orders gives the same `avg`, the weighted mean `(1·2 + 3·4)/(2+4) = 7/3`. -/
theorem meter_avg_order_invariant_witness :
    (applyUpdates AverageMeter.empty [(1, 2), (3, 4)]).avg
      = (applyUpdates AverageMeter.empty [(3, 4), (1, 2)]).avg ∧
    (applyUpdates AverageMeter.empty [(1, 2), (3, 4)]).avg = 7 / 3 := by
  have h := meter_avg_order_invariant [(1, 2), (3, 4)] [(3, 4), (1, 2)]
    (List.Perm.swap _ _ _) (by norm_num)
  refine ⟨h.1, h.2.trans ?_⟩
  norm_num

/-- Claim C5 counterexample: an agent whose configured loss function is
mean-squared-error and whose validation task is a classification task
comes out of `validation` with its loss function changed to cross-entropy,
so `validation` does mutate state used by loss aggregation. -/
theorem validation_mutates_criterion_fn :
    (validationState (fun _ => OutputMode.classification) "sst-2"
      { training := true, criterion_fn := LossKind.mse,
        valid_out_dim := ValidOutDim.ALL, optimizer := 0 }).criterion_fn
      ≠ LossKind.mse := by
  decide

/-- Claim C5 amended: `validation` restores the model's prior
training/eval mode and leaves `valid_out_dim` and the optimizer state
unchanged, but it reassigns the configured loss function according to the
validation task's name and output mode (cross-entropy for `cola` and
classification tasks, mean-squared-error for regression tasks). -/
theorem validation_frame_effect (output_modes : String → OutputMode)
    (val_name : String) (s : AgentState) :
    (validationState output_modes val_name s).training = s.training ∧
    (validationState output_modes val_name s).valid_out_dim = s.valid_out_dim ∧
    (validationState output_modes val_name s).optimizer = s.optimizer ∧
    (validationState output_modes val_name s).criterion_fn =
      (if val_name = "cola" then LossKind.crossEntropy
       else match output_modes val_name with
            | OutputMode.classification => LossKind.crossEntropy
            | OutputMode.regression => LossKind.mse) := by
  unfold validationState
  by_cases h : val_name = "cola"
  · simp [h]
  · cases hm : output_modes val_name <;> simp [h, hm]

/-- The number of training-pass events for epoch `e` in one epoch block. -/
theorem epochEvents_count_trainPass (i e : Nat) (hasVal : Bool) :
    (epochEvents i hasVal).count (Event.trainPass e)
      = if e = i then 1 else 0 := by
  cases hasVal <;> by_cases h : e = i <;>
    simp [epochEvents, h, List.count_cons, List.count_append]

/-- The number of scheduler-step events for epoch `e` in one epoch
block. -/
theorem epochEvents_count_schedStep (i e : Nat) (hasVal : Bool) :
    (epochEvents i hasVal).count (Event.schedStep e)
      = if e = i then 1 else 0 := by
  cases hasVal <;> by_cases h : e = i <;>
    simp [epochEvents, h, List.count_cons, List.count_append]

/-- The number of validation events for epoch `e` in one epoch block. -/
theorem epochEvents_count_validate (i e : Nat) (hasVal : Bool) :
    (epochEvents i hasVal).count (Event.validate e)
      = if hasVal ∧ e = i then 1 else 0 := by
  cases hasVal <;> by_cases h : e = i <;>
    simp [epochEvents, h, List.count_cons, List.count_append]

/-- Counting one event per epoch over the epoch range: epoch `e` occurs
exactly once when `e < L` and never otherwise. -/
theorem range_flatMap_count (f : Nat → List Event) (ev : Nat → Event)
    (hone : ∀ i e, (f i).count (ev e) = if e = i then 1 else 0)
    (L e : Nat) :
    ((List.range L).flatMap f).count (ev e)
      = if e < L then 1 else 0 := by
  induction L with
  | zero => simp
  | succ L ih =>
    rw [List.range_succ, List.flatMap_append, List.count_append, ih]
    simp only [List.flatMap_cons, List.flatMap_nil, List.append_nil, hone]
    by_cases h : e < L
    · have h2 : ¬ e = L := by omega
      simp [h, h2, Nat.lt_succ_of_lt h]
    · by_cases h2 : e = L
      · simp [h, h2]
      · have h3 : ¬ e < L + 1 := by omega
        simp [h, h2, h3]

/-- Claim C6 counterexample: with schedule `[1]`, the epoch loop runs only
epoch `0`: epoch index `1`, although it lies in the closed interval
`[0, 1]` ending at the last milestone, gets no training pass. -/
theorem learn_batch_schedule_one_no_epoch_one :
    (learn_batch_trace [1] true).count (Event.trainPass 1) = 0 ∧
    (learn_batch_trace [1] true).count (Event.trainPass 0) = 1 := by
  decide

/-- Claim C6 amended: for a schedule with last milestone `L`, `learn_batch`
executes one training pass for each epoch index in `[0, L)` (and none for
indices `≥ L`), steps the learning-rate scheduler exactly once per such
epoch — `L` steps in total, so exactly once for schedule `[1]` — and
invokes validation exactly once per epoch exactly when a validation loader
is supplied. -/
theorem learn_batch_epoch_counts (schedule : List Nat) (hasVal : Bool) (e : Nat) :
    ((learn_batch_trace schedule hasVal).count (Event.trainPass e)
        = if e < lastMilestone schedule then 1 else 0) ∧
    ((learn_batch_trace schedule hasVal).count (Event.schedStep e)
        = if e < lastMilestone schedule then 1 else 0) ∧
    ((learn_batch_trace schedule hasVal).count (Event.validate e)
        = if hasVal ∧ e < lastMilestone schedule then 1 else 0) := by
  unfold learn_batch_trace
  refine ⟨?_, ?_, ?_⟩
  · exact range_flatMap_count (fun i => epochEvents i hasVal) (Event.trainPass)
      (fun i e => epochEvents_count_trainPass i e hasVal) (lastMilestone schedule) e
  · exact range_flatMap_count (fun i => epochEvents i hasVal) (Event.schedStep)
      (fun i e => epochEvents_count_schedStep i e hasVal) (lastMilestone schedule) e
  · cases hv : hasVal
    · have hz : ∀ i, (epochEvents i false).count (Event.validate e) = 0 := by
        intro i
        simp [epochEvents, List.count_cons, List.count_append]
      rw [if_neg (by simp)]
      induction (lastMilestone schedule) with
      | zero => simp
      | succ L ih =>
        rw [List.range_succ, List.flatMap_append, List.count_append, ih]
        simp [hz]
    · have h := range_flatMap_count (fun i => epochEvents i true) (Event.validate)
        (fun i e => by simpa using epochEvents_count_validate i e true)
        (lastMilestone schedule) e
      simpa using h

end LPC
